import Mathlib

/-!
Verification of the TribeBuilders content-generation pipeline.

This file gives a shallow embedding of the persona-aware content generation
and quality-scoring pipeline of the repository:

* `src/services/aiService.ts` — quality scoring heuristics
  (`calculateReadabilityScore`, `countSyllables`, `calculateEngagementScore`,
  `calculateBrandConsistencyScore`, `scoreContentQuality`), the generation
  loop `generateContent`, and the `withRateLimit` wrapper;
* `src/services/templateService.ts` — `processTemplate` and
  `validateTemplate`;
* `src/routes/content.ts` — the `POST /generate` response shape.

JavaScript numbers are modelled by exact rationals (`ℚ`); strings are
modelled by `String` / `List Char` with explicit ASCII-level regex
equivalents.  Wall-clock values (`Date.now()`, `generated_at`,
`processing_date`) are either dropped or passed in as explicit naturals.
-/

namespace TribeBuilders

/-! ## Character classes (JS regex `\s`, `\w`, `[a-z]`, vowels) -/

/-- JS `\s` restricted to the ASCII whitespace characters
(space, tab, newline, carriage return, form feed, vertical tab). -/
def isWsChar (c : Char) : Bool :=
  c = ' ' || c = '\t' || c = '\n' || c = '\r' || c = '\x0b' || c = '\x0c'

/-- JS `\w`, i.e. `[A-Za-z0-9_]`. -/
def isWordChar (c : Char) : Bool :=
  ('a' ≤ c && c ≤ 'z') || ('A' ≤ c && c ≤ 'Z') || ('0' ≤ c && c ≤ '9') || c = '_'

/-- `[a-z]` (used by `countSyllables` after `toLowerCase()`). -/
def isLowerAlpha (c : Char) : Bool := 'a' ≤ c && c ≤ 'z'

/-- `[aeiouy]` (the syllable heuristic's vowel class). -/
def isVowelY (c : Char) : Bool :=
  c = 'a' || c = 'e' || c = 'i' || c = 'o' || c = 'u' || c = 'y'

/-- `[.!?]` (sentence terminators in `calculateReadabilityScore`). -/
def isSentenceTerm (c : Char) : Bool := c = '.' || c = '!' || c = '?'

/-! ## Maximal runs

JS `String.prototype.split(/X+/)` (with pieces later filtered to be
non-blank) and `String.prototype.match(/X+/g)` both decompose a string into
its maximal runs of `X`-characters.  `splitRuns p cs` is the list of maximal
runs of characters satisfying `p`. -/

def splitRuns (p : Char → Bool) : List Char → List (List Char)
  | [] => []
  | c :: cs =>
    let rest := splitRuns p cs
    if p c then
      match cs, rest with
      | c' :: _, r :: rs => if p c' then (c :: r) :: rs else [c] :: rest
      | _, _ => [c] :: rest
    else rest

/-- Lowercase a character list (JS `toLowerCase()`; ASCII-faithful). -/
def lowerList (cs : List Char) : List Char := cs.map Char.toLower

/-- Lowercase a string (JS `toLowerCase()`; ASCII-faithful). -/
def lowerStr (s : String) : String := ⟨lowerList s.toList⟩

/-! ## Readability (`calculateReadabilityScore`, `countSyllables`) -/

/-- Syllables of one `[a-z]+` word: the number of maximal `[aeiouy]+` groups
(`1` when there are none), minus one when the word ends in `e` and the count
exceeds one, floored at `1`. -/
def wordSyllables (w : List Char) : Nat :=
  let groups := (splitRuns isVowelY w).length
  let s := if groups = 0 then 1 else groups
  let s := if w.getLast? = some 'e' && s > 1 then s - 1 else s
  max 1 s

/-- `countSyllables`: sum of per-word syllables over the maximal `[a-z]+`
runs of the lowercased text. -/
def countSyllables (cs : List Char) : Nat :=
  ((splitRuns isLowerAlpha (lowerList cs)).map wordSyllables).sum

/-- Sentence count: pieces of `content.split(/[.!?]+/)` whose trim is
non-empty, i.e. maximal non-terminator runs containing a non-whitespace
character. -/
def sentenceCount (cs : List Char) : Nat :=
  ((splitRuns (fun c => !isSentenceTerm c) cs).filter
    (fun r => r.any (fun c => !isWsChar c))).length

/-- Word count: pieces of `content.split(/\s+/)` of positive length, i.e.
maximal non-whitespace runs. -/
def wordCount (cs : List Char) : Nat :=
  (splitRuns (fun c => !isWsChar c) cs).length

/-- `calculateReadabilityScore`: normalized Flesch reading-ease
approximation, `0.5` on degenerate input. -/
def calculateReadabilityScore (content : String) : ℚ :=
  let cs := content.toList
  let sentences := sentenceCount cs
  let words := wordCount cs
  let syllables := countSyllables cs
  if sentences = 0 || words = 0 then 1/2
  else
    let avgSentenceLength : ℚ := (words : ℚ) / (sentences : ℚ)
    let avgSyllablesPerWord : ℚ := (syllables : ℚ) / (words : ℚ)
    let fleschScore : ℚ :=
      206835/1000 - (1015/1000) * avgSentenceLength - (846/10) * avgSyllablesPerWord
    max 0 (min 1 (fleschScore / 100))

/-! ## Engagement (`calculateEngagementScore`) -/

/-- `/\b(w₁|w₂|…)\b/i` over words made of `\w`-characters: some maximal
`\w`-run of the text, lowercased, is one of the listed words. -/
def hasWbWord (words : List (List Char)) (cs : List Char) : Bool :=
  (splitRuns isWordChar cs).any (fun r => words.contains (lowerList r))

/-- `/@\w+/`-style test: the marker character immediately followed by a
`\w` character occurs somewhere in the text. -/
def hasMarker (sym : Char) : List Char → Bool
  | a :: b :: rest => (a = sym && isWordChar b) || hasMarker sym (b :: rest)
  | _ => false

/-- The six engagement indicator tests of `calculateEngagementScore`,
in source order. -/
def engagementIndicators (cs : List Char) : List Bool :=
  [ cs.any (fun c => c = '!' || c = '?'),
    hasWbWord [['y','o','u'], ['y','o','u','r'], ['y','o','u','r','s']] cs,
    hasWbWord (["amazing", "incredible", "excited", "love", "awesome",
      "fantastic"].map String.toList) cs,
    hasWbWord (["new", "fresh", "latest", "upcoming", "soon"].map String.toList) cs,
    hasMarker '@' cs,
    hasMarker '#' cs ]

/-- `calculateEngagementScore`: base `0.5`, `+0.1` per matched indicator,
`+0.1` for a length between 30% and 150% of the ideal 280 characters,
clamped to `1`. -/
def calculateEngagementScore (content : String) : ℚ :=
  let cs := content.toList
  let score : ℚ := 1/2 + (1/10) * ((engagementIndicators cs).count true : ℚ)
  let lengthRatio : ℚ := (cs.length : ℚ) / 280
  let score := if 3/10 < lengthRatio ∧ lengthRatio < 3/2 then score + 1/10 else score
  min 1 score

/-! ## Brand consistency (`calculateBrandConsistencyScore`) -/

/-- The rows of `PersonaData` used by the scoring pipeline.  Fields not read
by the heuristics (`artist_id`, `persona_name`, `voice_characteristics`,
`questionnaire_responses`) are omitted. -/
structure PersonaData where
  id : String
  tone : String
  target_audience : String
  key_themes : List String
  deriving DecidableEq, Repr

/-- `startsWith needle haystack`: `needle` is an initial segment of
`haystack`. -/
def startsWith : List Char → List Char → Bool
  | [], _ => true
  | _ :: _, [] => false
  | a :: as, b :: bs => a = b && startsWith as bs

/-- JS `haystack.includes(needle)`: substring test. -/
def strIncludes : List Char → List Char → Bool
  | [], needle => needle.isEmpty
  | c :: t, needle => startsWith needle (c :: t) || strIncludes t needle

/-- The fixed `toneWords` table of `calculateBrandConsistencyScore`. -/
def toneWords (tone : String) : List String :=
  if tone = "casual" then ["hey", "guys", "awesome", "cool", "love"]
  else if tone = "professional" then ["pleased", "excited", "announce", "share", "grateful"]
  else if tone = "edgy" then ["raw", "real", "bold", "fierce", "unapologetic"]
  else if tone = "friendly" then ["friends", "family", "together", "community", "support"]
  else []

/-- `calculateBrandConsistencyScore`: base `0.5`, plus a theme-fraction
bonus capped at `0.3`, plus a per-tone-word bonus capped at `0.2`,
clamped to `1`. -/
def calculateBrandConsistencyScore (content : String) (persona : PersonaData) : ℚ :=
  let contentLower := lowerList content.toList
  let themeMatches :=
    (persona.key_themes.filter
      (fun t => strIncludes contentLower (lowerList t.toList))).length
  let score : ℚ := 1/2 +
    (if 0 < themeMatches
      then ((themeMatches : ℚ) / (persona.key_themes.length : ℚ)) * (3/10)
      else 0)
  let personaTone := if persona.tone = "" then "casual" else lowerStr persona.tone
  let relevantWords := toneWords personaTone
  let toneMatches :=
    (relevantWords.filter (fun w => strIncludes contentLower w.toList)).length
  let score := if 0 < toneMatches
    then score + min (1/5) ((toneMatches : ℚ) * (1/20))
    else score
  min 1 score

/-! ## Overall quality metrics (`scoreContentQuality`) -/

structure ContentQualityMetrics where
  score : ℚ
  readability : ℚ
  engagement_potential : ℚ
  brand_consistency : ℚ
  issues : List String
  suggestions : List String
  deriving DecidableEq, Repr

/-- The body of `scoreContentQuality`'s `try` block (the computation run on
a cache miss): the three sub-scores, the fixed-weight overall score, and the
threshold-driven issues and suggestions. -/
def scoreContentQualityCompute (content : String) (persona : PersonaData) :
    ContentQualityMetrics :=
  let readability := calculateReadabilityScore content
  let engagement := calculateEngagementScore content
  let brand := calculateBrandConsistencyScore content persona
  let score := readability * (3/10) + engagement * (2/5) + brand * (3/10)
  { score := score
    readability := readability
    engagement_potential := engagement
    brand_consistency := brand
    issues :=
      (if readability < 3/5 then ["Content may be too complex or difficult to read"] else []) ++
      (if engagement < 3/5 then ["Content may not be engaging enough"] else []) ++
      (if brand < 3/5 then ["Content may not align well with artist persona"] else [])
    suggestions :=
      (if readability < 3/5 then ["Simplify language and sentence structure"] else []) ++
      (if engagement < 3/5 then ["Add more emotional language or call-to-action"] else []) ++
      (if brand < 3/5 then ["Review tone and themes to better match artist brand"] else []) }

/-! ## The quality-score cache (`scoreContentQuality`)

`scoreContentQuality` first consults the shared `NodeCache` under the key
`cacheKey('quality_score', { content, persona_id: persona.id })` — an MD5
hash of `(content, persona.id)` only, not of the whole persona.  The cache
is modelled as an association list keyed by the hashed data
`(content, persona.id)` (the hash is injective on the model's keys). -/

abbrev QCache := List ((String × String) × ContentQualityMetrics)

/-- Empty cache (the state before any invocation). -/
def emptyQCache : QCache := []

/-- `scoreContentQuality(content, persona)`: return the cached metrics for
`(content, persona.id)` when present, otherwise compute the metrics and
cache them under that key.  Returns the metrics and the updated cache. -/
def scoreContentQuality (cache : QCache) (content : String) (persona : PersonaData) :
    ContentQualityMetrics × QCache :=
  match cache.lookup (content, persona.id) with
  | some m => (m, cache)
  | none =>
    let m := scoreContentQualityCompute content persona
    (m, ((content, persona.id), m) :: cache)

/-- A sequence of prior `scoreContentQuality` invocations, threaded through
the shared cache. -/
def scoreMany (cache : QCache) (calls : List (String × PersonaData)) : QCache :=
  calls.foldl (fun c call => (scoreContentQuality c call.1 call.2).2) cache

/-- A persona whose themes match the text `"rock on"`. -/
def personaRock : PersonaData := ⟨"p1", "casual", "fans", ["rock"]⟩

/-- A persona with the same id as `personaRock` but no themes. -/
def personaPlain : PersonaData := ⟨"p1", "casual", "fans", []⟩

/-- The cache at `(text, persona.id)` either has no entry or holds exactly
the metrics computed for `(text, p)`. -/
def qcacheConsistent (text : String) (p : PersonaData) (cache : QCache) : Prop :=
  cache.lookup (text, p.id) = none ∨
  cache.lookup (text, p.id) = some (scoreContentQualityCompute text p)

/-! ## Content generation (`generateContent`, `POST /generate`)

`generateContent` loops `i = 0 .. variations-1`, calls the text-generation
backend, trims the returned text (`response.generated_text?.trim() || ''`),
discards empty results without retrying, scores the rest against the
persona, and finally sorts by quality score, highest first, with
`results.sort((a, b) => b.quality_score - a.quality_score)`.

The backend is modelled as a function from the call index to the raw text
it returns.  `generated_at`, `generation_params` and `model_used` carry no
logic and are omitted from the result record.  Within one request the
score of each result equals the pure computation
`scoreContentQualityCompute` (the quality cache can only memoize that same
computation for a repeated content string). -/

/-- JS `String.prototype.trim` on a character list (ASCII whitespace). -/
def trimList (cs : List Char) : List Char :=
  ((cs.dropWhile isWsChar).reverse.dropWhile isWsChar).reverse

/-- JS `String.prototype.trim`. -/
def trimStr (s : String) : String := ⟨trimList s.toList⟩

structure GeneratedContent where
  content : String
  quality_score : ℚ
  variation_id : Nat
  deriving DecidableEq, Repr

/-- The results accumulated by the generation loop, in generation order:
variation `i` contributes an entry exactly when its trimmed backend text is
non-empty. -/
def rawResults (persona : PersonaData) (variations : Nat)
    (backendOut : Nat → String) : List GeneratedContent :=
  (List.range variations).filterMap fun i =>
    let content := trimStr (backendOut i)
    if content = "" then none
    else some
      { content := content
        quality_score := (scoreContentQualityCompute content persona).score
        variation_id := i + 1 }

/-- One insertion step of a stable descending sort by `quality_score`:
the inserted element (earlier in generation order) goes in front of the
first element with less-or-equal score. -/
def insertDesc (x : GeneratedContent) : List GeneratedContent → List GeneratedContent
  | [] => [x]
  | y :: l => if y.quality_score ≤ x.quality_score then x :: y :: l else y :: insertDesc x l

/-- `results.sort((a, b) => b.quality_score - a.quality_score)`.
ECMAScript's `Array.prototype.sort` is stable, and the stable sort for a
given comparator is unique, so insertion of each element in front of the
first later-generated element with less-or-equal score realizes it. -/
def sortByQualityDesc (l : List GeneratedContent) : List GeneratedContent :=
  l.foldr insertDesc []

/-- `generateContent` (uncached path): generate, trim, discard empties,
score, sort descending by quality. -/
def generateContent (persona : PersonaData) (variations : Nat)
    (backendOut : Nat → String) : List GeneratedContent :=
  sortByQualityDesc (rawResults persona variations backendOut)

/-- The tail of the `POST /api/content/generate` handler: an empty result
list yields HTTP 200 with the message `No content generated`; a non-empty
one yields HTTP 200 with `Content generated successfully`. -/
def generateRoute (persona : PersonaData) (variations : Nat)
    (backendOut : Nat → String) : Nat × String :=
  let generated := generateContent persona variations backendOut
  if generated.length = 0 then (200, "No content generated")
  else (200, "Content generated successfully")

/-- Sorted-descending-with-stable-ties order: strictly higher score first,
equal scores ordered by generation order (`variation_id`). -/
def genOrd (a b : GeneratedContent) : Prop :=
  b.quality_score < a.quality_score ∨
  (a.quality_score = b.quality_score ∧ a.variation_id < b.variation_id)

/-- The result record produced for variation index `i` when its trimmed
backend text is non-empty. -/
def resultAt (persona : PersonaData) (backendOut : Nat → String) (i : Nat) :
    GeneratedContent :=
  { content := trimStr (backendOut i)
    quality_score := (scoreContentQualityCompute (trimStr (backendOut i)) persona).score
    variation_id := i + 1 }

/-! ## Rate limiting (`rateLimiter`, `withRateLimit`)

`aiService.ts` instantiates `RateLimiterMemory` from the
`rate-limiter-flexible` package with `points` (the quota) and
`duration: 60` seconds, and `withRateLimit` runs
`await rateLimiter.consume('ai_request')` before the wrapped operation.

The package is a third-party dependency whose source is not in this
repository; its documented semantics are modelled here: `consume` keeps,
per key, a points counter and a window expiry set when the first call
creates (or an expired call re-creates) the window at `now + duration`;
a consume within an unexpired window increments the counter and *rejects*
(the returned promise is rejected, i.e. `await` throws) when the counter
exceeds the quota.  It is a fixed-window limiter: the window is anchored
at the first call, not rolling.  Time is in explicit milliseconds. -/

structure LimiterState where
  points : Nat
  windowExpiry : Nat
  deriving DecidableEq, Repr

/-- One `rateLimiter.consume` call at time `now`: returns whether the call
is admitted, and the state afterwards.  A call with no live window (no
state, or the stored window already expired) opens a fresh window expiring
`duration` ms from now; otherwise the stored counter is bumped and the call
is admitted only while the counter stays within the quota. -/
def rlConsume (quota duration now : Nat) (st : Option LimiterState) :
    Bool × LimiterState :=
  match st with
  | none => (decide (1 ≤ quota), ⟨1, now + duration⟩)
  | some s =>
    if s.windowExpiry ≤ now then (decide (1 ≤ quota), ⟨1, now + duration⟩)
    else (decide (s.points + 1 ≤ quota), ⟨s.points + 1, s.windowExpiry⟩)

/-- `withRateLimit(operation)`: `await rateLimiter.consume('ai_request')`
throws when the quota is exceeded, so the wrapped operation never runs and
the rejection propagates to the caller; otherwise the operation's result is
returned. -/
def withRateLimit {α : Type} (quota duration now : Nat) (st : Option LimiterState)
    (op : α) : Except String α × LimiterState :=
  if (rlConsume quota duration now st).1
    then (Except.ok op, (rlConsume quota duration now st).2)
    else (Except.error "Too Many Requests", (rlConsume quota duration now st).2)

/-- The per-call admission decisions for a sequence of consume calls at the
given times. -/
def limiterRun (quota duration : Nat) (st : Option LimiterState) :
    List Nat → List Bool
  | [] => []
  | t :: ts =>
    (rlConsume quota duration t st).1 ::
      limiterRun quota duration (some (rlConsume quota duration t st).2) ts

/-! ## Template service (`templateService.ts`)

Variable values arrive as JSON (`Record<string, any>`); the service relies
on JavaScript truthiness (`!variables[v.name]`), so values are modelled as
a small JS value type and records as insertion-ordered association lists
(`Object.entries` order). -/

inductive JSValue where
  | str (s : String)
  | num (n : Int)
  | bool (b : Bool)
  | vnull
  deriving DecidableEq, Repr

/-- JS truthiness of a value (`undefined` is handled at lookup sites). -/
def JSValue.truthy : JSValue → Bool
  | .str s => !(s == "")
  | .num n => !(n == 0)
  | .bool b => b
  | .vnull => false

/-- JS `String(value)`. -/
def JSValue.toStr : JSValue → String
  | .str s => s
  | .num n => toString n
  | .bool b => if b then "true" else "false"
  | .vnull => "null"

/-- A JS object in `Object.entries` (insertion) order. -/
abbrev JSRecord := List (String × JSValue)

/-- `record[name]` — `none` models `undefined`. -/
def jget (r : JSRecord) (name : String) : Option JSValue := r.lookup name

/-- JS `!record[name]`: the property is absent or its value is falsy. -/
def falsyAt (r : JSRecord) (name : String) : Bool :=
  match jget r name with
  | some v => !v.truthy
  | none => true

/-- `record[name] = v`: overwrite in place when the key exists, else append
(preserving `Object.entries` order). -/
def jset : JSRecord → String → JSValue → JSRecord
  | [], n, v => [(n, v)]
  | (k, w) :: rest, n, v =>
    if k = n then (n, v) :: rest else (k, w) :: jset rest n v

structure TemplateVariable where
  name : String
  type : String
  required : Bool
  default_value : Option JSValue := none
  options : Option (List String) := none
  description : Option String := none
  deriving DecidableEq, Repr

structure CreateTemplateRequest where
  template_name : String
  template_type : String
  template_content : String
  /-- Source field name `variables` (a Lean keyword). -/
  vars : List TemplateVariable
  description : Option String := none
  deriving DecidableEq, Repr

/-- A stored template row as read by `processTemplate` (`template_content`
plus the parsed `variables.variables` array). -/
structure StoredTemplate where
  id : String
  template_content : String
  /-- Source field path `variables.variables` (a Lean keyword). -/
  vars : List TemplateVariable
  deriving DecidableEq, Repr

/-! ### The `/{{([^}]+)}}/g` scanner

A match is `{{`, then one or more non-`}` characters (greedy; backtracking
cannot help since all run characters are non-`}`), then `}}`.  The global
scan emits non-overlapping matches left to right, resuming after each
match. -/

/-- Try to match `/{{([^}]+)}}/` at the head: returns the full match and
the remaining characters. -/
def phMatchAt (cs : List Char) : Option (List Char × List Char) :=
  match cs with
  | '{' :: '{' :: rest =>
    let run := rest.takeWhile (fun c => c ≠ '}')
    if run.isEmpty then none
    else
      match rest.drop run.length with
      | '}' :: '}' :: rest' =>
        some ('{' :: '{' :: (run ++ ['}', '}']), rest')
      | _ => none
  | _ => none

/-- Global scan for `/{{([^}]+)}}/g`; `fuel` bounds the recursion (each
step consumes at least one character). -/
def scanPlaceholders : Nat → List Char → List (List Char)
  | 0, _ => []
  | _, [] => []
  | fuel + 1, c :: cs =>
    match phMatchAt (c :: cs) with
    | some (m, rest) => m :: scanPlaceholders fuel rest
    | none => scanPlaceholders fuel cs

/-- All `/{{([^}]+)}}/g` matches of a string, as matched substrings. -/
def findPlaceholders (s : String) : List String :=
  (scanPlaceholders s.toList.length s.toList).map fun m => ⟨m⟩

/-- `match.replace(/[{}]/g, '')`: strip every brace from a matched token,
leaving the placeholder name. -/
def stripBraces (m : String) : String :=
  ⟨m.toList.filter fun c => c ≠ '{' ∧ c ≠ '}'⟩

/-- The placeholder names occurring in a template body. -/
def placeholderNames (body : String) : List String :=
  (findPlaceholders body).map stripBraces

/-! ### Replacement and whitespace cleanup -/

/-- Replace every occurrence of non-empty `pat` by `repl`, scanning left to
right without rescanning spliced-in replacements (JS
`String.prototype.replace` with a global pattern); `fuel` bounds the
recursion. -/
def replaceAllAux (pat repl : List Char) : Nat → List Char → List Char
  | 0, cs => cs
  | _, [] => []
  | fuel + 1, c :: cs =>
    if startsWith pat (c :: cs) then
      repl ++ replaceAllAux pat repl fuel ((c :: cs).drop pat.length)
    else
      c :: replaceAllAux pat repl fuel cs

def replaceAll (s pat repl : String) : String :=
  ⟨replaceAllAux pat.toList repl.toList s.toList.length s.toList⟩

/-- `.replace(/\s+/g, ' ')`: collapse every maximal whitespace run to one
space; `fuel` bounds the recursion. -/
def collapseWsAux : Nat → List Char → List Char
  | 0, cs => cs
  | _, [] => []
  | fuel + 1, c :: cs =>
    if isWsChar c then ' ' :: collapseWsAux fuel (cs.dropWhile isWsChar)
    else c :: collapseWsAux fuel cs

/-- Index just past the last `'\n'` in the leading whitespace run of `cs`,
when there is one: the extent of the greedy `/\s*\n/` continuation. -/
def greedyNlEnd (cs : List Char) : Option Nat :=
  let run := cs.takeWhile isWsChar
  match run.reverse.findIdx? (fun c => c = '\n') with
  | some j => some (run.length - j)
  | none => none

/-- `.replace(/\n\s*\n/g, '\n\n')`: each match — a newline, greedy interior
whitespace, and a final newline — becomes exactly one blank line; `fuel`
bounds the recursion.  (In `processTemplate` this runs *after*
`.replace(/\s+/g, ' ')` has removed every newline, so it never fires
there.) -/
def collapseNlAux : Nat → List Char → List Char
  | 0, cs => cs
  | _, [] => []
  | fuel + 1, c :: cs =>
    if c = '\n' then
      match greedyNlEnd cs with
      | some e => '\n' :: '\n' :: collapseNlAux fuel (cs.drop e)
      | none => c :: collapseNlAux fuel cs
    else c :: collapseNlAux fuel cs

/-- The whitespace cleanup at the end of `processTemplate`:
`.replace(/\s+/g, ' ').replace(/\n\s*\n/g, '\n\n').trim()`. -/
def cleanupWhitespace (s : String) : String :=
  let s1 := collapseWsAux s.toList.length s.toList
  let s2 := collapseNlAux s1.length s1
  ⟨trimList s2⟩

/-! ### `processTemplate` -/

structure ProcessedTemplate where
  template_id : String
  processed_content : String
  variables_used : JSRecord
  deriving DecidableEq, Repr

/-- The required variables reported missing:
`templateVariables.filter(v => v.required && !variables[v.name]).map(v => v.name)`
— note the truthiness test counts falsy supplied values as missing. -/
def missingRequiredVars (tvars : List TemplateVariable) (values : JSRecord) :
    List String :=
  (tvars.filter fun v => v.required && falsyAt values v.name).map fun v => v.name

/-- Defaults applied for missing (or falsy) optional values:
`if (!processedVariables[v.name] && v.default_value !== undefined)
 processedVariables[v.name] = v.default_value`, in declaration order over a
copy of the supplied record. -/
def applyDefaultStep (acc : JSRecord) (v : TemplateVariable) : JSRecord :=
  match v.default_value with
  | some d => if falsyAt acc v.name then jset acc v.name d else acc
  | none => acc

def applyDefaults (tvars : List TemplateVariable) (values : JSRecord) : JSRecord :=
  tvars.foldl applyDefaultStep values

/-- `Object.entries(processedVariables).forEach(([key, value]) => …replace
all {{key}} by String(value)…)`, in record order. -/
def substituteVars (content : String) (pv : JSRecord) : String :=
  pv.foldl (fun s kv => replaceAll s ("\x7b\x7b" ++ kv.1 ++ "\x7d\x7d") kv.2.toStr) content

/-- Removal of the remaining `/{{([^}]+)}}/g` matches: each matched token is
replaced by the empty string.  (The source replaces the first occurrence of
each match, once per occurrence in the match list; removing all occurrences
of each matched token is the same net result.) -/
def removeUnreplaced (content : String) : String :=
  (findPlaceholders content).foldl (fun s m => replaceAll s m "") content

/-- `processTemplate` (after the template row is fetched): validate required
variables, apply defaults, substitute, drop unresolved placeholders, clean
up whitespace.  The thrown `Missing required variables: …` error is the
`Except.error` case. -/
def processTemplate (t : StoredTemplate) (values : JSRecord) :
    Except String ProcessedTemplate :=
  let missing := missingRequiredVars t.vars values
  if missing.isEmpty then
    let pv := applyDefaults t.vars values
    let substituted := substituteVars t.template_content pv
    let cleaned := cleanupWhitespace (removeUnreplaced substituted)
    Except.ok
      { template_id := t.id
        processed_content := cleaned
        variables_used := pv }
  else
    Except.error ("Missing required variables: " ++ String.intercalate ", " missing)

/-! ### `validateTemplate` -/

structure ValidationResult where
  isValid : Bool
  errors : List String
  deriving DecidableEq, Repr

/-- The recognized variable types. -/
def validVarTypes : List String := ["text", "number", "date", "boolean", "select"]

/-- The per-variable error messages pushed by `validateTemplate`'s
`forEach((variable, index) => …)`. -/
def variableErrors (idx : Nat) (v : TemplateVariable) : List String :=
  (if (trimStr v.name) = "" then ["Variable " ++ toString (idx + 1) ++ ": name is required"]
   else []) ++
  (if v.type ∈ validVarTypes then []
   else ["Variable " ++ v.name ++ ": invalid type"]) ++
  (if v.type = "select" ∧ v.options.getD [] = [] then
    ["Variable " ++ v.name ++ ": select type requires options"]
   else [])

/-- The `forEach((variable, index) => …)` accumulation over the declared
variables, carrying the running index. -/
def varErrorsFrom (idx : Nat) : List TemplateVariable → List String
  | [] => []
  | v :: vs => variableErrors idx v ++ varErrorsFrom (idx + 1) vs

/-- `validateTemplate`: empty-field checks, placeholder/declaration
cross-checks, and per-variable checks, with the error messages accumulated
in source order; `isValid ↔ errors = []`. -/
def validateTemplate (t : CreateTemplateRequest) : ValidationResult :=
  let contentVariables := placeholderNames t.template_content
  let definedVariables := t.vars.map fun v => v.name
  let undefinedVariables :=
    contentVariables.filter fun cv => !(definedVariables.contains cv)
  let unusedVariables :=
    definedVariables.filter fun dv => !(contentVariables.contains dv)
  let errors :=
    (if (trimStr t.template_name) = "" then ["Template name is required"] else []) ++
    (if (trimStr t.template_type) = "" then ["Template type is required"] else []) ++
    (if (trimStr t.template_content) = "" then ["Template content is required"] else []) ++
    (if undefinedVariables = [] then []
     else ["Undefined variables in content: " ++
        String.intercalate ", " undefinedVariables]) ++
    (if unusedVariables = [] then []
     else ["Unused variable definitions: " ++
        String.intercalate ", " unusedVariables]) ++
    varErrorsFrom 0 t.vars
  { isValid := errors.isEmpty, errors := errors }

/-! ## C3: whitespace normalization destroys paragraph breaks

`processTemplate` cleans up with `.replace(/\s+/g, ' ')` *first*, which
replaces every whitespace run — newlines included — by a single space; the
subsequent `.replace(/\n\s*\n/g, '\n\n')` can never match because no
newline survives the first pass.  The spec's promised paragraph-break
preservation is therefore impossible: the output of `processTemplate`
contains no newline at all. -/

/-- A template whose body contains a paragraph break. -/
def tmplParagraph : StoredTemplate :=
  ⟨"t1", "Hello \x7b\x7bname\x7d\x7d!\n\nBye", [⟨"name", "text", true, none, none, none⟩]⟩

def valsParagraph : JSRecord := [("name", JSValue.str "World")]

/-- A template with one required and one defaulted optional variable. -/
def tmplDefault : StoredTemplate :=
  ⟨"t2", "\x7b\x7ba\x7d\x7d and \x7b\x7bb\x7d\x7d",
    [⟨"a", "text", true, none, none, none⟩,
     ⟨"b", "text", false, some (JSValue.str "dflt"), none, none⟩]⟩

/-! ## C8: `validateTemplate` rejects exactly the faulty templates -/

/-- A single declared variable's faults as the spec lists them: missing
name, unrecognized type, or a `select` variable without a non-empty
options list. -/
def varFault (v : TemplateVariable) : Prop :=
  trimStr v.name = "" ∨ v.type ∉ validVarTypes ∨
    (v.type = "select" ∧ v.options.getD [] = [])

/-- The spec's fault list for `Register` validation, written from the
spec's words ("fails with `ValidationError` if: name empty, body empty,
type empty, any declared variable missing a name or having an unrecognized
type, any select-typed variable missing a non-empty options list, any
placeholder in body not declared as a variable, or any declared variable
not referenced by a placeholder in body").  "Empty" is read as blank —
empty after trimming — matching the `!field?.trim()` idiom; placeholder
extraction is the `/{{([^}]+)}}/g` scanner. -/
def specTemplateFaults (t : CreateTemplateRequest) : Prop :=
  trimStr t.template_name = "" ∨
  trimStr t.template_type = "" ∨
  trimStr t.template_content = "" ∨
  (∃ v ∈ t.vars, varFault v) ∨
  (∃ p ∈ placeholderNames t.template_content, p ∉ t.vars.map fun v => v.name) ∨
  (∃ n ∈ t.vars.map fun v => v.name, n ∉ placeholderNames t.template_content)

/-- Every cache entry was produced by the computing path: its key is
`(text, persona.id)` and its value the computed metrics for some persona
with that id. -/
def qcacheWellFormed (cache : QCache) : Prop :=
  ∀ e ∈ cache, ∃ t q, e.1 = (t, PersonaData.id q) ∧
    e.2 = scoreContentQualityCompute t q

/-! ## Theorems -/

/-! ## Bounds of the sub-scores -/

theorem calculateReadabilityScore_bounds (content : String) :
    0 ≤ calculateReadabilityScore content ∧ calculateReadabilityScore content ≤ 1 := by
  simp only [calculateReadabilityScore]
  constructor
  · split
    · norm_num
    · exact le_max_left 0 _
  · split
    · norm_num
    · exact max_le (by norm_num) (min_le_left 1 _)

theorem calculateEngagementScore_bounds (content : String) :
    1/2 ≤ calculateEngagementScore content ∧ calculateEngagementScore content ≤ 1 := by
  unfold calculateEngagementScore
  refine ⟨le_min (by norm_num) ?_, min_le_left 1 _⟩
  have h0 : (0:ℚ) ≤ ((engagementIndicators content.toList).count true : ℚ) := by positivity
  split <;> nlinarith

theorem calculateBrandConsistencyScore_bounds (content : String) (persona : PersonaData) :
    1/2 ≤ calculateBrandConsistencyScore content persona ∧
      calculateBrandConsistencyScore content persona ≤ 1 := by
  simp only [calculateBrandConsistencyScore]
  refine ⟨le_min (by norm_num) ?_, min_le_left 1 _⟩
  set th := (persona.key_themes.filter (fun t =>
      strIncludes (lowerList content.toList) (lowerList t.toList))).length with hth
  set tm := ((toneWords (if persona.tone = "" then "casual" else lowerStr persona.tone)).filter
      (fun w => strIncludes (lowerList content.toList) w.toList)).length with htm
  have hTheme : (0:ℚ) ≤
      (if 0 < th then ((th : ℚ) / (persona.key_themes.length : ℚ)) * (3/10) else 0) := by
    split
    · positivity
    · exact le_refl 0
  have hTone : (0:ℚ) ≤ min (1/5) ((tm : ℚ) * (1/20)) :=
    le_min (by norm_num) (by positivity)
  split
  · linarith
  · linarith

/-- The computed metrics satisfy the fixed-weight formula and the `[0,1]`
bound. -/
theorem scoreCompute_weighted_sum_and_bounds (content : String) (persona : PersonaData) :
    (scoreContentQualityCompute content persona).score =
      calculateReadabilityScore content * (3/10) +
      calculateEngagementScore content * (2/5) +
      calculateBrandConsistencyScore content persona * (3/10) ∧
    0 ≤ (scoreContentQualityCompute content persona).score ∧
    (scoreContentQualityCompute content persona).score ≤ 1 := by
  obtain ⟨hr0, hr1⟩ := calculateReadabilityScore_bounds content
  obtain ⟨he0, he1⟩ := calculateEngagementScore_bounds content
  obtain ⟨hb0, hb1⟩ := calculateBrandConsistencyScore_bounds content persona
  have hscore : (scoreContentQualityCompute content persona).score =
      calculateReadabilityScore content * (3/10) +
      calculateEngagementScore content * (2/5) +
      calculateBrandConsistencyScore content persona * (3/10) := rfl
  exact ⟨hscore, by rw [hscore]; linarith, by rw [hscore]; linarith⟩

theorem qcache_lookup_mem {cache : QCache} {k : String × String}
    {m : ContentQualityMetrics} (h : cache.lookup k = some m) : (k, m) ∈ cache := by
  induction cache with
  | nil => simp [List.lookup] at h
  | cons e rest ih =>
    obtain ⟨k', m'⟩ := e
    by_cases hk : (k == k') = true
    · simp only [List.lookup, hk] at h
      rw [Option.some.injEq] at h
      subst h
      exact List.mem_cons.mpr (Or.inl (by rw [eq_of_beq hk]))
    · have hb : (k == k') = false := by simpa using hk
      simp only [List.lookup, hb] at h
      exact List.mem_cons.mpr (Or.inr (ih h))

theorem scoreContentQuality_preserves_wellFormed (cache : QCache)
    (content : String) (p : PersonaData) (h : qcacheWellFormed cache) :
    qcacheWellFormed (scoreContentQuality cache content p).2 := by
  unfold scoreContentQuality
  cases hc : cache.lookup (content, p.id) with
  | some m => exact h
  | none =>
    intro e he
    rcases List.mem_cons.mp he with rfl | hmem
    · exact ⟨content, p, rfl, rfl⟩
    · exact h e hmem

theorem scoreMany_wellFormed :
    ∀ (calls : List (String × PersonaData)) (cache : QCache),
    qcacheWellFormed cache → qcacheWellFormed (scoreMany cache calls)
  | [], _, h => h
  | c :: rest, cache, h =>
    scoreMany_wellFormed rest _
      (scoreContentQuality_preserves_wellFormed cache c.1 c.2 h)

theorem scoreContentQuality_result_eq_compute (cache : QCache)
    (content : String) (p : PersonaData) (h : qcacheWellFormed cache) :
    ∃ t q, (scoreContentQuality cache content p).1 =
      scoreContentQualityCompute t q := by
  unfold scoreContentQuality
  cases hc : cache.lookup (content, p.id) with
  | none => exact ⟨content, p, rfl⟩
  | some m =>
    obtain ⟨t, q, _, hv⟩ := h _ (qcache_lookup_mem hc)
    exact ⟨t, q, hv⟩

/-- C1: after any history of prior invocations, the metrics returned by
`scoreContentQuality` for a text and persona have an overall score equal to
`0.3 · readability + 0.4 · engagement + 0.3 · brand_consistency` (their own
sub-scores, written with the exact rationals `3/10`, `2/5`, `3/10`), and
that overall score always lies in `[0,1]`: both the freshly computed and
the cached metrics satisfy the fixed-weight formula. -/
theorem score_weighted_sum_and_bounds (calls : List (String × PersonaData))
    (content : String) (persona : PersonaData) :
    ((scoreContentQuality (scoreMany emptyQCache calls) content persona).1.score =
      (scoreContentQuality (scoreMany emptyQCache calls) content
          persona).1.readability * (3/10) +
      (scoreContentQuality (scoreMany emptyQCache calls) content
          persona).1.engagement_potential * (2/5) +
      (scoreContentQuality (scoreMany emptyQCache calls) content
          persona).1.brand_consistency * (3/10)) ∧
    0 ≤ (scoreContentQuality (scoreMany emptyQCache calls) content
      persona).1.score ∧
    (scoreContentQuality (scoreMany emptyQCache calls) content
      persona).1.score ≤ 1 := by
  have hwf : qcacheWellFormed (scoreMany emptyQCache calls) :=
    scoreMany_wellFormed calls emptyQCache (fun e he => absurd he (List.not_mem_nil e))
  obtain ⟨t, q, heq⟩ :=
    scoreContentQuality_result_eq_compute _ content persona hwf
  rw [heq]
  have h := scoreCompute_weighted_sum_and_bounds t q
  refine ⟨?_, h.2.1, h.2.2⟩
  have hr : (scoreContentQualityCompute t q).readability =
      calculateReadabilityScore t := rfl
  have hee : (scoreContentQualityCompute t q).engagement_potential =
      calculateEngagementScore t := rfl
  have hb : (scoreContentQualityCompute t q).brand_consistency =
      calculateBrandConsistencyScore t q := rfl
  rw [hr, hee, hb]
  exact h.1

/-- C9: for every text (and, for brand consistency, every persona), the
engagement-potential and brand-consistency sub-scores are bounded below by
the `0.5` base value and above by `1.0`; bonuses only ever add, so neither
can fall below neutral (only readability can). -/
theorem engagement_brand_never_below_base (content : String) (persona : PersonaData) :
    1/2 ≤ calculateEngagementScore content ∧ calculateEngagementScore content ≤ 1 ∧
    1/2 ≤ calculateBrandConsistencyScore content persona ∧
    calculateBrandConsistencyScore content persona ≤ 1 := by
  obtain ⟨he0, he1⟩ := calculateEngagementScore_bounds content
  obtain ⟨hb0, hb1⟩ := calculateBrandConsistencyScore_bounds content persona
  exact ⟨he0, he1, hb0, hb1⟩

theorem scoreContentQuality_preserves_consistent (text : String) (p : PersonaData)
    (t' : String) (q : PersonaData) (hq : t' = text → q.id = p.id → q = p)
    (cache : QCache) (h : qcacheConsistent text p cache) :
    qcacheConsistent text p (scoreContentQuality cache t' q).2 := by
  unfold scoreContentQuality
  cases hc : cache.lookup (t', q.id) with
  | some m => exact h
  | none =>
    unfold qcacheConsistent at h ⊢
    by_cases hkey : ((text, p.id) : String × String) = (t', q.id)
    · right
      obtain ⟨h1, h2⟩ := Prod.mk.injEq .. ▸ hkey
      have hqp : q = p := hq h1.symm h2.symm
      simp [List.lookup, hkey, hqp, h1, h2]
    · have : ((text, p.id) == ((t', q.id) : String × String)) = false := by
        simpa using hkey
      simpa [List.lookup, this] using h

theorem scoreMany_consistent (text : String) (p : PersonaData) :
    ∀ (calls : List (String × PersonaData)) (cache : QCache),
    (∀ c ∈ calls, c.1 = text → c.2.id = p.id → c.2 = p) →
    qcacheConsistent text p cache → qcacheConsistent text p (scoreMany cache calls)
  | [], cache, _, h => h
  | c :: rest, cache, hcalls, h => by
    have hstep := scoreContentQuality_preserves_consistent text p c.1 c.2
      (hcalls c (List.mem_cons_self c rest)) cache h
    exact scoreMany_consistent text p rest _
      (fun d hd => hcalls d (List.mem_cons_of_mem c hd)) hstep

/-- C5 counterexample: two invocations of `scoreContentQuality` with
identical text (`"rock on"`) and identical persona (`personaPlain`) return
different metrics depending on cache state: a prior invocation with
`personaRock` — a different persona sharing the id `"p1"` — poisons the
cache entry for the key `("rock on", "p1")`. -/
theorem scoreContentQuality_not_cache_independent :
    (scoreContentQuality
        ((scoreContentQuality emptyQCache "rock on" personaRock).2)
        "rock on" personaPlain).1 ≠
      (scoreContentQuality emptyQCache "rock on" personaPlain).1 := by
  have hl : (scoreContentQuality
      ((scoreContentQuality emptyQCache "rock on" personaRock).2)
      "rock on" personaPlain).1 = scoreContentQualityCompute "rock on" personaRock := rfl
  have hr : (scoreContentQuality emptyQCache "rock on" personaPlain).1 =
      scoreContentQualityCompute "rock on" personaPlain := rfl
  rw [hl, hr]
  intro h
  have hb := congrArg ContentQualityMetrics.brand_consistency h
  have hbr : (scoreContentQualityCompute "rock on" personaRock).brand_consistency =
      calculateBrandConsistencyScore "rock on" personaRock := rfl
  have hbp : (scoreContentQualityCompute "rock on" personaPlain).brand_consistency =
      calculateBrandConsistencyScore "rock on" personaPlain := rfl
  rw [hbr, hbp] at hb
  have h1 : calculateBrandConsistencyScore "rock on" personaRock = 4/5 := by
    have ht : (personaRock.key_themes.filter (fun t =>
        strIncludes (lowerList "rock on".toList) (lowerList t.toList))).length = 1 := by decide
    have hw : ((toneWords (if personaRock.tone = "" then "casual"
        else lowerStr personaRock.tone)).filter
        (fun w => strIncludes (lowerList "rock on".toList) w.toList)).length = 0 := by decide
    simp only [calculateBrandConsistencyScore, ht, hw]
    norm_num [personaRock]
  have h2 : calculateBrandConsistencyScore "rock on" personaPlain = 1/2 := by
    have ht : (personaPlain.key_themes.filter (fun t =>
        strIncludes (lowerList "rock on".toList) (lowerList t.toList))).length = 0 := by decide
    have hw : ((toneWords (if personaPlain.tone = "" then "casual"
        else lowerStr personaPlain.tone)).filter
        (fun w => strIncludes (lowerList "rock on".toList) w.toList)).length = 0 := by decide
    simp only [calculateBrandConsistencyScore, ht, hw]
    norm_num
  rw [h1, h2] at hb
  norm_num at hb

/-- C5 amended: the uncached computation is a pure function of
`(text, persona)`, and `scoreContentQuality` returns exactly that
computation provided no prior invocation used the same text with a
*different* persona sharing the same `persona.id`; the cache key is only
`(content, persona.id)`, so such a prior invocation can change the result. -/
theorem scoreContentQuality_pure_up_to_id_collisions
    (calls : List (String × PersonaData)) (text : String) (p : PersonaData)
    (h : ∀ c ∈ calls, c.1 = text → c.2.id = p.id → c.2 = p) :
    (scoreContentQuality (scoreMany emptyQCache calls) text p).1 =
      scoreContentQualityCompute text p := by
  have hgood : qcacheConsistent text p (scoreMany emptyQCache calls) :=
    scoreMany_consistent text p calls emptyQCache h (Or.inl rfl)
  unfold scoreContentQuality
  rcases hgood with hnone | hsome
  · simp [hnone]
  · simp [hsome]

/-- C5 amended, witness: a prior invocation with the *same* persona leaves
the result equal to the pure computation. -/
theorem scoreContentQuality_pure_up_to_id_collisions_witness :
    (scoreContentQuality (scoreMany emptyQCache [("rock on", personaRock)])
        "rock on" personaRock).1 =
      scoreContentQualityCompute "rock on" personaRock :=
  scoreContentQuality_pure_up_to_id_collisions [("rock on", personaRock)]
    "rock on" personaRock (by decide)

theorem genOrd_of_le_vid {x z : GeneratedContent}
    (h : z.quality_score ≤ x.quality_score) (hv : x.variation_id < z.variation_id) :
    genOrd x z :=
  h.lt_or_eq.elim Or.inl fun he => Or.inr ⟨he.symm, hv⟩

theorem genOrd_score_le {a b : GeneratedContent} (h : genOrd a b) :
    b.quality_score ≤ a.quality_score :=
  h.elim le_of_lt fun hc => le_of_eq hc.1.symm

theorem insertDesc_perm (x : GeneratedContent) (l : List GeneratedContent) :
    (insertDesc x l).Perm (x :: l) := by
  induction l with
  | nil => exact List.Perm.refl _
  | cons y l ih =>
    unfold insertDesc
    split
    · exact List.Perm.refl _
    · exact (List.Perm.cons y ih).trans (List.Perm.swap x y l)

theorem sortByQualityDesc_perm (l : List GeneratedContent) :
    (sortByQualityDesc l).Perm l := by
  induction l with
  | nil => exact List.Perm.refl _
  | cons x l ih =>
    exact (insertDesc_perm x (sortByQualityDesc l)).trans (List.Perm.cons x ih)

theorem insertDesc_pairwise (x : GeneratedContent) (l : List GeneratedContent)
    (hl : l.Pairwise genOrd)
    (hvid : ∀ y ∈ l, x.variation_id < y.variation_id) :
    (insertDesc x l).Pairwise genOrd := by
  induction l with
  | nil => simp [insertDesc]
  | cons y l ih =>
    rw [List.pairwise_cons] at hl
    unfold insertDesc
    split
    · rename_i hle
      rw [List.pairwise_cons]
      refine ⟨?_, List.pairwise_cons.mpr hl⟩
      intro z hz
      rcases List.mem_cons.mp hz with rfl | hzl
      · exact genOrd_of_le_vid hle (hvid z (List.mem_cons_self z l))
      · exact genOrd_of_le_vid
          ((genOrd_score_le (hl.1 z hzl)).trans hle)
          (hvid z (List.mem_cons_of_mem y hzl))
    · rename_i hgt
      rw [List.pairwise_cons]
      constructor
      · intro z hz
        rcases List.mem_cons.mp ((insertDesc_perm x l).mem_iff.mp hz) with rfl | hzl
        · exact Or.inl (lt_of_not_le hgt)
        · exact hl.1 z hzl
      · exact ih hl.2 fun z hzl => hvid z (List.mem_cons_of_mem y hzl)

theorem sortByQualityDesc_pairwise (l : List GeneratedContent)
    (hvid : l.Pairwise (fun a b => a.variation_id < b.variation_id)) :
    (sortByQualityDesc l).Pairwise genOrd := by
  induction l with
  | nil => simp [sortByQualityDesc]
  | cons x l ih =>
    rw [List.pairwise_cons] at hvid
    refine insertDesc_pairwise x (sortByQualityDesc l) (ih hvid.2) ?_
    intro y hy
    exact hvid.1 y ((sortByQualityDesc_perm l).mem_iff.mp hy)

theorem length_filterMap_eq_length_filter {α β : Type} (f : α → Option β) (l : List α) :
    (l.filterMap f).length = (l.filter (fun a => (f a).isSome)).length := by
  induction l with
  | nil => rfl
  | cons a l ih => cases h : f a <;> simp [List.filterMap_cons, List.filter_cons, h, ih]

/-- C2: a generation request with `variationCount = 3` whose backend calls
all return non-empty (after trimming) text yields exactly 3 results,
sorted descending by `quality_score` with ties in generation order
(`genOrd`-pairwise), and those results are a permutation of the loop's
accumulated results. -/
theorem generateContent_three_sorted_stable (persona : PersonaData)
    (backendOut : Nat → String)
    (h : ∀ i, i < 3 → trimStr (backendOut i) ≠ "") :
    (generateContent persona 3 backendOut).length = 3 ∧
    (generateContent persona 3 backendOut).Pairwise genOrd ∧
    (generateContent persona 3 backendOut).Perm (rawResults persona 3 backendOut) := by
  have h0 := h 0 (by norm_num)
  have h1 := h 1 (by norm_num)
  have h2 := h 2 (by norm_num)
  have hr3 : List.range 3 = [0, 1, 2] := rfl
  have hraw : rawResults persona 3 backendOut =
      [resultAt persona backendOut 0, resultAt persona backendOut 1,
        resultAt persona backendOut 2] := by
    unfold rawResults
    rw [hr3]
    simp only [List.filterMap_cons, List.filterMap_nil, if_neg h0, if_neg h1, if_neg h2]
    rfl
  have hvid : (rawResults persona 3 backendOut).Pairwise
      (fun a b => a.variation_id < b.variation_id) := by
    rw [hraw]
    simp [List.pairwise_cons, resultAt]
  refine ⟨?_, sortByQualityDesc_pairwise _ hvid, sortByQualityDesc_perm _⟩
  have hlen := (sortByQualityDesc_perm (rawResults persona 3 backendOut)).length_eq
  rw [show generateContent persona 3 backendOut =
    sortByQualityDesc (rawResults persona 3 backendOut) from rfl, hlen, hraw]
  rfl

/-- C2 witness at a concrete backend that always returns `"Hi!"`. -/
theorem generateContent_three_sorted_stable_witness :
    (generateContent personaRock 3 (fun _ => "Hi!")).length = 3 ∧
    (generateContent personaRock 3 (fun _ => "Hi!")).Pairwise genOrd ∧
    (generateContent personaRock 3 (fun _ => "Hi!")).Perm
      (rawResults personaRock 3 (fun _ => "Hi!")) :=
  generateContent_three_sorted_stable personaRock (fun _ => "Hi!") (by decide)

/-- C6: each variation whose (trimmed) backend text is empty is discarded —
the loop makes exactly one backend call per variation index, never retries,
and the final list's length is the number of variations with non-empty
text — and when every variation comes back empty the request produces the
empty list and the route answers HTTP 200 with `No content generated`,
not an error. -/
theorem generateContent_discards_empty (persona : PersonaData) (variations : Nat)
    (backendOut : Nat → String) :
    (generateContent persona variations backendOut).length =
      ((List.range variations).filter
        (fun i => !(trimStr (backendOut i) == ""))).length ∧
    ((∀ i, i < variations → trimStr (backendOut i) = "") →
      generateContent persona variations backendOut = [] ∧
      generateRoute persona variations backendOut = (200, "No content generated")) := by
  constructor
  · have hlen := (sortByQualityDesc_perm (rawResults persona variations backendOut)).length_eq
    rw [show generateContent persona variations backendOut =
      sortByQualityDesc (rawResults persona variations backendOut) from rfl, hlen]
    unfold rawResults
    rw [length_filterMap_eq_length_filter]
    congr 1
    refine List.filter_congr ?_
    intro i _
    by_cases hi : trimStr (backendOut i) = "" <;> simp [hi]
  · intro hall
    have hraw : rawResults persona variations backendOut = [] := by
      refine List.filterMap_eq_nil_iff.mpr ?_
      intro i hi
      simp [hall i (List.mem_range.mp hi)]
    have hgen : generateContent persona variations backendOut = [] := by
      rw [show generateContent persona variations backendOut =
        sortByQualityDesc (rawResults persona variations backendOut) from rfl, hraw]
      rfl
    exact ⟨hgen, by simp [generateRoute, hgen]⟩

/-- C6 witness: a backend returning only whitespace for both variations. -/
theorem generateContent_discards_empty_witness :
    generateContent personaRock 2 (fun _ => "  ") = [] ∧
    generateRoute personaRock 2 (fun _ => "  ") = (200, "No content generated") :=
  (generateContent_discards_empty personaRock 2 (fun _ => "  ")).2 (by decide)

/-- C4 counterexample: (i) with a quota of 1 per 60 s, a second call in the
same window is rejected — `withRateLimit` surfaces an error instead of
delaying the call until quota is available — and (ii) with a quota of 2,
calls at `t = 0, 59, 60, 60.001` seconds are *all* admitted: the window
anchored at `t = 0` expires at `t = 60`, so the three admitted calls at
`t = 59, 60, 60.001` s all start within a single rolling 60-second window
(they span 1.001 s), exceeding the quota of 2 — the limiter bounds fixed
windows, not rolling ones. -/
theorem rateLimiter_rejects_and_is_fixed_window :
    limiterRun 1 60000 none [0, 0] = [true, false] ∧
    (withRateLimit 1 60000 0 (some ⟨1, 60000⟩) 42).1 =
      Except.error "Too Many Requests" ∧
    limiterRun 2 60000 none [0, 59000, 60000, 60001] =
      [true, true, true, true] ∧
    60001 - 59000 < 60000 := by
  refine ⟨rfl, rfl, rfl, by norm_num⟩

theorem limiterRun_count_le (quota duration : Nat) :
    ∀ (times : List Nat) (k : Nat) (exp : Nat),
      (∀ t ∈ times, t < exp) →
      (limiterRun quota duration (some ⟨k, exp⟩) times).count true ≤ quota - k
  | [], _, _, _ => by simp [limiterRun]
  | t :: ts, k, exp, h => by
    have ht : ¬ exp ≤ t := not_le.mpr (h t (List.mem_cons_self t ts))
    have hrest := limiterRun_count_le quota duration ts (k + 1) exp
      (fun u hu => h u (List.mem_cons_of_mem t hu))
    simp only [limiterRun, rlConsume, if_neg ht, List.count_cons]
    by_cases hq : k + 1 ≤ quota
    · simp [decide_eq_true hq]
      omega
    · simp [decide_eq_false hq]
      omega

/-- C4 amended: a call exceeding the quota is rejected immediately — the
wrapped operation is not run and the error surfaces to the caller — and at
most `quota` calls are admitted within one fixed window, i.e. among any
sequence of calls all made less than `duration` ms after the call that
opened the window.  (More than `quota` calls *can* start inside a rolling
window spanning two fixed windows, as the counterexample shows.) -/
theorem rateLimiter_rejects_and_bounds_fixed_window (quota duration : Nat)
    {α : Type} (op : α) (now : Nat) (st : Option LimiterState) :
    ((rlConsume quota duration now st).1 = false →
      (withRateLimit quota duration now st op).1 =
        Except.error "Too Many Requests") ∧
    (∀ (t0 : Nat) (times : List Nat), (∀ t ∈ times, t < t0 + duration) →
      (limiterRun quota duration none (t0 :: times)).count true ≤ quota) := by
  constructor
  · intro hrej
    simp [withRateLimit, hrej]
  · intro t0 times h
    have hrest := limiterRun_count_le quota duration times 1 (t0 + duration) h
    simp only [limiterRun, rlConsume, List.count_cons]
    by_cases hq : 1 ≤ quota
    · simp only [decide_eq_true hq]
      simp only [Nat.zero_add] at hrest ⊢
      simp
      omega
    · simp only [decide_eq_false hq]
      simp only [Nat.zero_add] at hrest ⊢
      simp
      omega

/-- C4 amended, witness. -/
theorem rateLimiter_rejects_and_bounds_fixed_window_witness :
    (withRateLimit 1 60000 0 (some ⟨1, 60000⟩) (0 : Nat)).1 =
      Except.error "Too Many Requests" ∧
    (limiterRun 1 60000 none (0 :: [1, 2])).count true ≤ 1 :=
  ⟨(rateLimiter_rejects_and_bounds_fixed_window 1 60000 (0 : Nat) 0
      (some ⟨1, 60000⟩)).1 (by decide),
    (rateLimiter_rejects_and_bounds_fixed_window 1 60000 (0 : Nat) 0 none).2
      0 [1, 2] (by decide)⟩

/-- C3 divergence, evaluated at the failing input: the paragraph break in
`"Hello {{name}}!\n\nBye"` is collapsed to a single space — the result is
`"Hello World! Bye"`, which contains no newline, instead of the claimed
`"Hello World!\n\nBye"`. -/
theorem processTemplate_paragraph_break_collapsed :
    processTemplate tmplParagraph valsParagraph =
      Except.ok ⟨"t1", "Hello World! Bye", [("name", JSValue.str "World")]⟩ ∧
    "Hello World! Bye" ≠ "Hello World!\n\nBye" := by
  exact ⟨rfl, by decide⟩

/-! ## C7/C10: missing required variables and defaults -/

theorem jget_jset_self (r : JSRecord) (n : String) (v : JSValue) :
    jget (jset r n v) n = some v := by
  induction r with
  | nil => simp [jget, jset, List.lookup]
  | cons kv rest ih =>
    obtain ⟨k, w⟩ := kv
    by_cases hk : k = n
    · subst hk
      simp [jget, jset, List.lookup]
    · have hbeq : (n == k) = false := beq_eq_false_iff_ne.mpr (Ne.symm hk)
      simp only [jset, if_neg hk]
      show List.lookup n ((k, w) :: jset rest n v) = some v
      simpa [List.lookup, hbeq] using ih

theorem jget_jset_ne (r : JSRecord) (n : String) (v : JSValue) (k : String)
    (hk : k ≠ n) : jget (jset r n v) k = jget r k := by
  have hbkn : (k == n) = false := beq_eq_false_iff_ne.mpr hk
  induction r with
  | nil => simp [jget, jset, List.lookup, hbkn]
  | cons kv rest ih =>
    obtain ⟨k', w'⟩ := kv
    by_cases hk' : k' = n
    · subst hk'
      simp [jget, jset, List.lookup, hbkn]
    · simp only [jset, if_neg hk']
      show List.lookup k ((k', w') :: jset rest n v) =
        List.lookup k ((k', w') :: rest)
      by_cases hkk : k = k'
      · subst hkk
        simp [List.lookup]
      · have hbkk : (k == k') = false := beq_eq_false_iff_ne.mpr hkk
        simpa [List.lookup, hbkk] using ih

theorem falsyAt_congr {r r' : JSRecord} {n : String}
    (h : jget r n = jget r' n) : falsyAt r n = falsyAt r' n := by
  unfold falsyAt
  rw [h]

/-- `applyDefaultStep` only ever writes the variable's own key. -/
theorem applyDefaultStep_jget_ne (acc : JSRecord) (v : TemplateVariable)
    (n : String) (hn : n ≠ v.name) :
    jget (applyDefaultStep acc v) n = jget acc n := by
  unfold applyDefaultStep
  cases v.default_value with
  | none => rfl
  | some d =>
    by_cases hf : falsyAt acc v.name
    · simp only [hf, if_true]
      exact jget_jset_ne acc v.name d n hn
    · simp [hf]

theorem foldl_applyDefaultStep_jget_ne (l : List TemplateVariable)
    (acc : JSRecord) (n : String) (hn : n ∉ l.map fun v => v.name) :
    jget (l.foldl applyDefaultStep acc) n = jget acc n := by
  induction l generalizing acc with
  | nil => rfl
  | cons v vs ih =>
    simp only [List.map_cons, List.mem_cons, not_or] at hn
    rw [List.foldl_cons, ih _ hn.2, applyDefaultStep_jget_ne acc v n hn.1]

/-- When the current value is falsy and a default is declared, the step
writes the default. -/
theorem applyDefaultStep_eq_jset (acc : JSRecord) (v : TemplateVariable) (d : JSValue)
    (hd : v.default_value = some d) (hf : falsyAt acc v.name = true) :
    applyDefaultStep acc v = jset acc v.name d := by
  unfold applyDefaultStep
  rw [hd]
  simp [hf]

/-- The key lemma behind the default-value behaviour: a declared variable
with a falsy (or absent) supplied value and a declared default ends up
bound to that default, assuming declared variable names are distinct. -/
theorem applyDefaults_jget (tvars : List TemplateVariable) (values : JSRecord)
    (v : TemplateVariable) (d : JSValue)
    (hnd : (tvars.map fun v => v.name).Nodup) (hv : v ∈ tvars)
    (hfalsy : falsyAt values v.name = true) (hd : v.default_value = some d) :
    jget (applyDefaults tvars values) v.name = some d := by
  obtain ⟨l1, l2, rfl⟩ := List.append_of_mem hv
  have hmap : ((l1 ++ v :: l2).map fun w => w.name) =
      (l1.map fun w => w.name) ++ v.name :: (l2.map fun w => w.name) := by
    simp
  rw [hmap] at hnd
  obtain ⟨hnmem, -⟩ := List.nodup_cons.mp (List.nodup_middle.mp hnd)
  rw [List.mem_append] at hnmem
  push_neg at hnmem
  obtain ⟨hn1, hn2⟩ := hnmem
  unfold applyDefaults
  rw [List.foldl_append, List.foldl_cons,
    foldl_applyDefaultStep_jget_ne l2 _ v.name hn2]
  have hacc : jget (l1.foldl applyDefaultStep values) v.name = jget values v.name :=
    foldl_applyDefaultStep_jget_ne l1 values v.name hn1
  have hcond : falsyAt (l1.foldl applyDefaultStep values) v.name = true := by
    rw [falsyAt_congr hacc]
    exact hfalsy
  rw [applyDefaultStep_eq_jset _ v d hd hcond]
  exact jget_jset_self _ v.name d

theorem falsyAt_of_absent {values : JSRecord} {n : String}
    (h : jget values n = none) : falsyAt values n = true := by
  simp [falsyAt, h]

theorem falsyAt_of_falsy {values : JSRecord} {n : String} {jv : JSValue}
    (h : jget values n = some jv) (hf : jv.truthy = false) :
    falsyAt values n = true := by
  simp [falsyAt, h, hf]

theorem mem_missingRequiredVars {tvars : List TemplateVariable} {values : JSRecord}
    {v : TemplateVariable} (hv : v ∈ tvars) (hreq : v.required = true)
    (hfalsy : falsyAt values v.name = true) :
    v.name ∈ missingRequiredVars tvars values := by
  unfold missingRequiredVars
  exact List.mem_map.mpr ⟨v, List.mem_filter.mpr ⟨hv, by simp [hreq, hfalsy]⟩, rfl⟩

theorem processTemplate_error_of_missing (t : StoredTemplate) (values : JSRecord)
    (h : missingRequiredVars t.vars values ≠ []) :
    processTemplate t values =
      Except.error ("Missing required variables: " ++
        String.intercalate ", " (missingRequiredVars t.vars values)) := by
  have hne : (missingRequiredVars t.vars values).isEmpty = false := by
    cases hm : missingRequiredVars t.vars values with
    | nil => exact absurd hm h
    | cons a l => rfl
  simp [processTemplate, hne]

theorem processTemplate_ok_variables_used (t : StoredTemplate) (values : JSRecord)
    {R : ProcessedTemplate} (hok : processTemplate t values = Except.ok R) :
    R.variables_used = applyDefaults t.vars values := by
  by_cases hm : (missingRequiredVars t.vars values).isEmpty = true
  · simp only [processTemplate, hm, if_true] at hok
    rw [Except.ok.injEq] at hok
    rw [← hok]
  · simp only [processTemplate, Bool.of_not_eq_true hm, if_false] at hok
    exact Except.noConfusion hok

/-- C7: whenever some required variable is absent from the supplied values,
`processTemplate` fails with a `Missing required variables:` error whose
list contains *every* required variable absent from the values (not just
the first); and on success every optional variable absent from the values
whose declaration carries a default is bound to that default in
`variables_used` (assuming, as the default templates do, distinct declared
variable names). -/
theorem processTemplate_missing_error_and_defaults (t : StoredTemplate)
    (values : JSRecord) (hnd : (t.vars.map fun v => v.name).Nodup) :
    ((∃ v ∈ t.vars, v.required = true ∧ jget values v.name = none) →
      processTemplate t values =
        Except.error ("Missing required variables: " ++
          String.intercalate ", " (missingRequiredVars t.vars values)) ∧
      ∀ v ∈ t.vars, v.required = true → jget values v.name = none →
        v.name ∈ missingRequiredVars t.vars values) ∧
    (∀ R, processTemplate t values = Except.ok R →
      ∀ v ∈ t.vars, v.required = false → jget values v.name = none →
      ∀ d, v.default_value = some d →
        jget R.variables_used v.name = some d) := by
  constructor
  · rintro ⟨v, hv, hreq, habs⟩
    have hmem : v.name ∈ missingRequiredVars t.vars values :=
      mem_missingRequiredVars hv hreq (falsyAt_of_absent habs)
    refine ⟨processTemplate_error_of_missing t values ?_, ?_⟩
    · exact List.ne_nil_of_mem hmem
    · intro w hw hwreq hwabs
      exact mem_missingRequiredVars hw hwreq (falsyAt_of_absent hwabs)
  · intro R hok v hv hreq habs d hd
    rw [processTemplate_ok_variables_used t values hok]
    exact applyDefaults_jget t.vars values v d hnd hv (falsyAt_of_absent habs) hd

/-- C7 witness: with no values supplied, the required `a` makes processing
fail with the full missing list; with `a` supplied, the optional `b` is
bound to its default. -/
theorem processTemplate_missing_error_and_defaults_witness :
    processTemplate tmplDefault [] =
      Except.error ("Missing required variables: " ++
        String.intercalate ", " (missingRequiredVars tmplDefault.vars [])) ∧
    jget [("a", JSValue.str "X"), ("b", JSValue.str "dflt")] "b" =
      some (JSValue.str "dflt") := by
  constructor
  · exact ((processTemplate_missing_error_and_defaults tmplDefault [] (by decide)).1
      ⟨⟨"a", "text", true, none, none, none⟩, by decide, rfl, rfl⟩).1
  · exact (processTemplate_missing_error_and_defaults tmplDefault
        [("a", JSValue.str "X")] (by decide)).2
      ⟨"t2", "X and dflt", [("a", JSValue.str "X"), ("b", JSValue.str "dflt")]⟩
      rfl
      ⟨"b", "text", false, some (JSValue.str "dflt"), none, none⟩
      (by decide) rfl rfl (JSValue.str "dflt") rfl

/-- C10: a *supplied but falsy* value (empty string, `false`, `0`, `null`)
for a required variable is treated as missing — the request fails with the
missing-required error and the variable's name is in the reported list —
and a falsy supplied value for an optional variable with a declared default
is silently replaced by that default (distinct declared names assumed). -/
theorem processTemplate_falsy_supplied (t : StoredTemplate) (values : JSRecord)
    (hnd : (t.vars.map fun v => v.name).Nodup) :
    (∀ v ∈ t.vars, v.required = true →
      ∀ jv, jget values v.name = some jv → jv.truthy = false →
        processTemplate t values =
          Except.error ("Missing required variables: " ++
            String.intercalate ", " (missingRequiredVars t.vars values)) ∧
        v.name ∈ missingRequiredVars t.vars values) ∧
    (∀ R, processTemplate t values = Except.ok R →
      ∀ v ∈ t.vars, v.required = false →
      ∀ jv, jget values v.name = some jv → jv.truthy = false →
      ∀ d, v.default_value = some d →
        jget R.variables_used v.name = some d) := by
  constructor
  · intro v hv hreq jv hjv hfalse
    have hmem : v.name ∈ missingRequiredVars t.vars values :=
      mem_missingRequiredVars hv hreq (falsyAt_of_falsy hjv hfalse)
    exact ⟨processTemplate_error_of_missing t values (List.ne_nil_of_mem hmem), hmem⟩
  · intro R hok v hv hreq jv hjv hfalse d hd
    rw [processTemplate_ok_variables_used t values hok]
    exact applyDefaults_jget t.vars values v d hnd hv (falsyAt_of_falsy hjv hfalse) hd

/-- C10 witness: an empty string supplied for the required `a` still counts
as missing; `false` supplied for the optional `b` is replaced by its
default. -/
theorem processTemplate_falsy_supplied_witness :
    (processTemplate tmplDefault [("a", JSValue.str "")] =
      Except.error ("Missing required variables: " ++
        String.intercalate ", "
          (missingRequiredVars tmplDefault.vars [("a", JSValue.str "")])) ∧
      "a" ∈ missingRequiredVars tmplDefault.vars [("a", JSValue.str "")]) ∧
    jget [("a", JSValue.str "X"), ("b", JSValue.str "dflt")] "b" =
      some (JSValue.str "dflt") := by
  constructor
  · exact (processTemplate_falsy_supplied tmplDefault
        [("a", JSValue.str "")] (by decide)).1
      ⟨"a", "text", true, none, none, none⟩ (by decide) rfl
      (JSValue.str "") rfl rfl
  · exact (processTemplate_falsy_supplied tmplDefault
        [("a", JSValue.str "X"), ("b", JSValue.bool false)] (by decide)).2
      ⟨"t2", "X and dflt", [("a", JSValue.str "X"), ("b", JSValue.str "dflt")]⟩
      rfl
      ⟨"b", "text", false, some (JSValue.str "dflt"), none, none⟩
      (by decide) rfl (JSValue.bool false) rfl rfl (JSValue.str "dflt") rfl

theorem variableErrors_eq_nil (idx : Nat) (v : TemplateVariable) :
    variableErrors idx v = [] ↔ ¬ varFault v := by
  unfold variableErrors varFault
  by_cases h1 : trimStr v.name = "" <;>
    by_cases h2 : v.type ∈ validVarTypes <;>
      by_cases h3 : v.type = "select" ∧ v.options.getD [] = [] <;>
        simp [h1, h2, h3]

theorem varErrorsFrom_eq_nil (l : List TemplateVariable) :
    ∀ idx, varErrorsFrom idx l = [] ↔ ∀ v ∈ l, ¬ varFault v := by
  induction l with
  | nil => simp [varErrorsFrom]
  | cons v vs ih =>
    intro idx
    simp only [varErrorsFrom, List.append_eq_nil, variableErrors_eq_nil, ih,
      List.mem_cons]
    constructor
    · rintro ⟨hv, hvs⟩ w (rfl | hw)
      · exact hv
      · exact hvs w hw
    · intro h
      exact ⟨h v (Or.inl rfl), fun w hw => h w (Or.inr hw)⟩

theorem filter_not_contains_eq_nil (l m : List String) :
    (l.filter fun x => !(m.contains x)) = [] ↔ ¬ ∃ x ∈ l, x ∉ m := by
  rw [List.filter_eq_nil_iff]
  push_neg
  constructor
  · intro h x hx
    have := h x hx
    simpa using this
  · intro h x hx
    simpa using h x hx

theorem ite_nil_right {P : Prop} [Decidable P] (m : String) :
    (if P then [m] else ([] : List String)) = [] ↔ ¬P := by
  by_cases h : P <;> simp [h]

theorem ite_nil_left {P : Prop} [Decidable P] (m : String) :
    (if P then ([] : List String) else [m]) = [] ↔ P := by
  by_cases h : P <;> simp [h]

theorem list_isEmpty_false_iff {α : Type} (l : List α) :
    l.isEmpty = false ↔ ¬ l = [] := by
  cases l <;> simp

theorem validateTemplate_errors_nil (t : CreateTemplateRequest) :
    (validateTemplate t).errors = [] ↔ ¬ specTemplateFaults t := by
  unfold specTemplateFaults
  push_neg
  simp only [validateTemplate, List.append_eq_nil, ite_nil_right, ite_nil_left,
    varErrorsFrom_eq_nil, filter_not_contains_eq_nil]
  push_neg
  tauto

/-- C8: `validateTemplate` rejects a template definition (`isValid = false`,
with the offending fields enumerated in `errors`) iff one of the spec's
listed faults holds; in particular acceptance forces the placeholder-name
set to coincide with the declared-name set. -/
theorem validateTemplate_rejects_iff (t : CreateTemplateRequest) :
    (validateTemplate t).isValid = false ↔ specTemplateFaults t := by
  have hproj : (validateTemplate t).isValid = (validateTemplate t).errors.isEmpty := rfl
  rw [hproj, list_isEmpty_false_iff, validateTemplate_errors_nil, not_not]

end TribeBuilders
